import Mathlib

/-
Verification of the MindHarbor vector store (src/vector_store.py) and the
token accounting layer (src/db.py), as a shallow embedding in Lean.

Modelling conventions:
* numpy float arrays are idealized as lists of real numbers (`Vec`);
  `np.dot` and `np.linalg.norm` become `npDot` and `npNorm`.
* The two Python dicts `self.vectors` and `self.texts` are always written in
  lockstep with the same keys, so they are modelled as one insertion-ordered
  association list `Store.cache` from id to (text, vector).  Python dict
  assignment keeps the position of an existing key and appends new keys, which
  is what `dictUpsert` does.
* The SQLite `vectors` table is `Store.table`, a list of rows; `INSERT OR
  REPLACE` removes any row with the same primary key and appends the new row
  (`sqlUpsert`).  The open/closed state of the connection is `Store.connOpen`;
  operating on a closed connection raises, modelled as `Except.error Err.closed`.
* `pickle.dumps`/`pickle.loads` become the `Blob` inductive: a well-formed
  blob deserializes to exactly the vector it was built from, and a corrupt
  blob makes `pickle.loads` raise (`Err.unpickling`).
* `list.sort(key=lambda x: x[1], reverse=True)` is a stable descending sort
  by the score component, modelled with `List.mergeSort descBySim`.
* The slice `similarities[:k]` keeps Python slice semantics for negative `k`
  (`pySliceTo`).
* The embedding model `self.model.encode` is an external dependency and is a
  parameter `encode : String → Vec` of every store operation.
-/

namespace MindHarbor

noncomputable section VectorStore

/-- A numeric vector (numpy float array idealized over the reals). -/
abbrev Vec := List ℝ

/-- Elementwise product then sum: `np.dot` on two 1-d arrays. -/
def npDot (a b : Vec) : ℝ := ((a.zip b).map (fun p => p.1 * p.2)).sum

/-- Euclidean norm: `np.linalg.norm(a)`. -/
def npNorm (a : Vec) : ℝ := Real.sqrt (npDot a a)

/-- The `1e-8` denominator guard from `similarity_search`. -/
def eps : ℝ := 1 / 10 ^ 8

/-- Cosine similarity exactly as computed in `similarity_search`:
`np.dot(q, v) / (np.linalg.norm(q) * np.linalg.norm(v) + 1e-8)`. -/
def cosSim (q v : Vec) : ℝ := npDot q v / (npNorm q * npNorm v + eps)

/-- A serialized vector blob as stored in the `vector` column: either the
pickled image of a vector or corrupt bytes that `pickle.loads` rejects. -/
inductive Blob where
  | vec (v : Vec)
  | corrupt

/-- Serialization: `pickle.dumps(embedding)`. -/
def pickleDumps (v : Vec) : Blob := Blob.vec v

/-- Deserialization: `pickle.loads(vector_bytes)`; `none` models the raised
`UnpicklingError` on corrupt bytes. -/
def pickleLoads : Blob → Option Vec
  | Blob.vec v => some v
  | Blob.corrupt => none

/-- Errors a store operation can raise: operating on a closed sqlite
connection, or a pickle deserialization failure. -/
inductive Err where
  | closed
  | unpickling
deriving DecidableEq

/-- State of one `SimpleVectorStore` instance: the in-memory cache
(`self.vectors` and `self.texts`, in lockstep), the durable sqlite table,
and whether the connection is open. -/
structure Store where
  cache : List (String × String × Vec)
  table : List (String × String × Blob)
  connOpen : Bool

/-- A freshly initialized store on an empty database file. -/
def emptyStore : Store := ⟨[], [], true⟩

/-- Python dict assignment `d[k] = v`: replace in place if the key exists,
otherwise append at the end (dicts preserve insertion order). -/
def dictUpsert {α : Type} (l : List (String × α)) (k : String) (v : α) :
    List (String × α) :=
  if l.any (fun p => p.1 == k) then
    l.map (fun p => if p.1 == k then (k, v) else p)
  else l ++ [(k, v)]

/-- `INSERT OR REPLACE INTO vectors (id, text, vector) VALUES (?, ?, ?)`:
delete any row with this primary key, then insert the new row. -/
def sqlUpsert (t : List (String × String × Blob)) (id text : String)
    (b : Blob) : List (String × String × Blob) :=
  t.filter (fun r => !(r.1 == id)) ++ [(id, text, b)]

/-- Default ids when the caller omits them: `[f"doc_{i}" for i in range(len(texts))]`. -/
def genIds (n : Nat) : List String :=
  (List.range n).map (fun i => "doc_" ++ toString i)

/-- One iteration of the `add_texts` loop body: write the record into the
sqlite table and both in-memory dicts. -/
def writeOne (s : Store) (e : String × String × Vec) : Store :=
  { s with
    table := sqlUpsert s.table e.1 e.2.1 (pickleDumps e.2.2),
    cache := dictUpsert s.cache e.1 (e.2.1, e.2.2) }

/-- The `add_texts` loop over `zip(ids, texts, embeddings)`. -/
def writeBatch (st : Store) (batch : List (String × String × Vec)) : Store :=
  batch.foldl writeOne st

/-- `SimpleVectorStore.add_texts(texts, ids)`: derive ids if omitted, embed
the batch, then upsert each zipped (id, text, embedding) triple into table
and cache, and return the ids.  `self.conn.cursor()` on a closed connection
raises `Err.closed`.  Note the loop runs over `zip(ids, texts, embeddings)`,
which silently truncates to the shortest of the three lists. -/
def addTexts (encode : String → Vec) (st : Store) (texts : List String)
    (ids0 : Option (List String)) : Except Err (List String × Store) :=
  let ids := match ids0 with
    | some l => l
    | none => genIds texts.length
  let embeddings := texts.map encode
  if st.connOpen then
    Except.ok (ids, writeBatch st (ids.zip (texts.zip embeddings)))
  else Except.error Err.closed

/-- The row loop of `_load_all_vectors`: deserialize each fetched row in
order; a failing `pickle.loads` raises out of the loop. -/
def loadRows : List (String × String × Blob) →
    Except Err (List (String × String × Vec))
  | [] => Except.ok []
  | (id, text, b) :: rest =>
    match pickleLoads b with
    | none => Except.error Err.unpickling
    | some v => (loadRows rest).map (fun tl => (id, text, v) :: tl)

/-- The lazy hydration step of `similarity_search`: `if not self.vectors:
self._load_all_vectors()`.  Loading needs a live connection and fails on the
first corrupt blob; a non-empty cache skips storage entirely. -/
def hydrate (st : Store) : Except Err Store :=
  if st.cache.isEmpty then
    if st.connOpen then
      (loadRows st.table).map (fun c => { st with cache := c })
    else Except.error Err.closed
  else Except.ok st

/-- The comparison realizing `sort(key=lambda x: x[1], reverse=True)`:
descending by score, stable on ties. -/
def descBySim (a b : String × ℝ) : Bool := decide (b.2 ≤ a.2)

/-- Python slice `l[:k]` for an arbitrary integer `k`: a negative `k` counts
from the end (`max(len(l) + k, 0)` elements), it does not yield `[]`. -/
def pySliceTo {α : Type} (k : Int) (l : List α) : List α :=
  l.take (if 0 ≤ k then k.toNat else l.length - (-k).toNat)

/-- `SimpleVectorStore.similarity_search(query, k)`: embed the query, hydrate
the cache from sqlite if it is empty, score every cached record with cosine
similarity against its text, sort descending by score, return the first `k`. -/
def similaritySearch (encode : String → Vec) (st : Store) (query : String)
    (k : Int) : Except Err (List (String × ℝ) × Store) :=
  (hydrate st).map (fun st1 =>
    (pySliceTo k
      ((st1.cache.map (fun r => (r.2.1, cosSim (encode query) r.2.2))).mergeSort
        descBySim),
     st1))

/-- `SimpleVectorStore.close()`: close the sqlite connection, touching
nothing else. -/
def close (st : Store) : Store := { st with connOpen := false }

end VectorStore

/-- A row of the `users` table restricted to what the token operations read:
`user_id → tokens_remaining` (sqlite INTEGER). -/
abbrev UserDb := List (String × Int)

/-- `SELECT * FROM users WHERE user_id = ?`, projected to `tokens_remaining`. -/
def lookupTokens (db : UserDb) (u : String) : Option Int :=
  (db.find? (fun p => p.1 == u)).map (fun p => p.2)

/-- The `tokens_remaining` a caller observes for `u`: `u.get("tokens_remaining", 0)`. -/
def tokensOf (db : UserDb) (u : String) : Int :=
  (lookupTokens db u).getD 0

/-- `db.get_or_create_user`: return the existing row, or insert
`(user_id, 0)` and return the fresh row.  The first component is the row's
`tokens_remaining`, the second the resulting table. -/
def getOrCreateUser (db : UserDb) (u : String) : Int × UserDb :=
  match lookupTokens db u with
  | some t => (t, db)
  | none => (0, db ++ [(u, 0)])

/-- `UPDATE users SET tokens_remaining = tokens_remaining - 1 WHERE user_id = ?`. -/
def sqlDecrement (db : UserDb) (u : String) : UserDb :=
  db.map (fun p => if p.1 == u then (p.1, p.2 - 1) else p)

/-- `db.decrement_token`: fetch (or create) the user's row; if its
`tokens_remaining` is positive, decrement it and return `true`, otherwise
return `false` without writing. -/
def decrementToken (db : UserDb) (u : String) : Bool × UserDb :=
  let r := getOrCreateUser db u
  if 0 < r.1 then (true, sqlDecrement r.2 u) else (false, r.2)

noncomputable section Fixtures

/-- A concrete embedding model for test instances: every text maps to `[1]`. -/
def encA : String → Vec := fun _ => [1]

/-- A store with two cached records (used for the `k` bound tests). -/
def storeTwoA : Store := ⟨[("a", ("ta", [1])), ("b", ("tb", [1]))], [], true⟩

/-- A second store with two cached records (negative `k` slice test). -/
def storeTwoB : Store := ⟨[("c", ("tc", [1])), ("d", ("td", [1]))], [], true⟩

/-- A store whose table holds a corrupt blob between two valid rows. -/
def storeCorruptMid : Store :=
  ⟨[], [("a", "ta", Blob.vec [1]), ("b", "tb", Blob.corrupt),
        ("c", "tc", Blob.vec [1])], true⟩

/-- A store whose table holds a single corrupt blob. -/
def storeCorruptOne : Store := ⟨[], [("x", "tx", Blob.corrupt)], true⟩

/-- A store with one cached record (similarity formula test). -/
def storeOneA : Store := ⟨[("a", ("ta", [1]))], [], true⟩

/-- Another store with one cached record (ordering test). -/
def storeOneB : Store := ⟨[("e", ("te", [2]))], [], true⟩

/-- A store with two cached records and a durable row (close test). -/
def storeTwoC : Store :=
  ⟨[("f", ("tf", [1])), ("g", ("tg", [3]))], [("f", "tf", Blob.vec [1])], true⟩

end Fixtures

section VectorStoreLemmas

/-- Hydration is a no-op whenever the cache already holds records. -/
theorem hydrate_of_cache_ne (st : Store) (h : st.cache ≠ []) :
    hydrate st = Except.ok st := by
  unfold hydrate
  rw [if_neg]
  simp [List.isEmpty_iff, h]

/-- On a store with a non-empty cache, `similarity_search` skips storage and
returns the sliced descending sort of the scored cache, with the state
unchanged. -/
theorem simSearch_of_cache_ne (encode : String → Vec) (st : Store) (q : String)
    (k : Int) (h : st.cache ≠ []) :
    similaritySearch encode st q k =
      Except.ok
        (pySliceTo k
          ((st.cache.map (fun r => (r.2.1, cosSim (encode q) r.2.2))).mergeSort
            descBySim), st) := by
  unfold similaritySearch
  rw [hydrate_of_cache_ne st h]
  rfl

/-- Length of a Python slice `l[:k]`, including the negative `k` case. -/
theorem pySliceTo_length {α : Type} (k : Int) (l : List α) :
    (pySliceTo k l).length =
      if 0 ≤ k then min k.toNat l.length else l.length - (-k).toNat := by
  unfold pySliceTo
  by_cases hk : 0 ≤ k
  · simp [hk]
  · simp [hk, List.length_take]

/-- The number of results `similarity_search` returns over a non-empty cache
of `n` records: `min k n` for `k ≥ 0`, and `n - |k|` (clipped at 0) for
negative `k`. -/
theorem simSearch_length (encode : String → Vec) (st : Store) (q : String)
    (k : Int) (h : st.cache ≠ []) :
    ∃ r, similaritySearch encode st q k = Except.ok (r, st) ∧
      r.length = if 0 ≤ k then min k.toNat st.cache.length
                 else st.cache.length - (-k).toNat := by
  refine ⟨_, simSearch_of_cache_ne encode st q k h, ?_⟩
  rw [pySliceTo_length, List.length_mergeSort, List.length_map]

/-- A search on a never-populated store hydrates an empty table and returns
no results. -/
theorem simSearch_empty (encode : String → Vec) (q : String) (k : Int) :
    similaritySearch encode emptyStore q k = Except.ok ([], emptyStore) := by
  simp [similaritySearch, hydrate, emptyStore, loadRows, Except.map,
    List.mergeSort_nil, pySliceTo]

/-- Inversion of a successful `similarity_search`: the state comes from
hydration and the result is the sliced sort of the scored cache. -/
theorem simSearch_ok_inv (encode : String → Vec) (st : Store) (q : String)
    (k : Int) (r : List (String × ℝ)) (st1 : Store)
    (h : similaritySearch encode st q k = Except.ok (r, st1)) :
    hydrate st = Except.ok st1 ∧
      r = pySliceTo k
        ((st1.cache.map (fun x => (x.2.1, cosSim (encode q) x.2.2))).mergeSort
          descBySim) := by
  unfold similaritySearch at h
  cases hh : hydrate st with
  | error e => rw [hh] at h; simp [Except.map] at h
  | ok st2 =>
    rw [hh] at h
    simp [Except.map] at h
    obtain ⟨h1, h2⟩ := h
    subst h2
    exact ⟨rfl, h1.symm⟩

/-- Every returned pair comes from a cached record, scored with the exact
cosine expression of the source. -/
theorem mem_simSearch (encode : String → Vec) (st : Store) (q : String)
    (k : Int) (r : List (String × ℝ)) (st1 : Store)
    (h : similaritySearch encode st q k = Except.ok (r, st1))
    (p : String × ℝ) (hp : p ∈ r) :
    ∃ id v, (id, p.1, v) ∈ st1.cache ∧
      p.2 = npDot (encode q) v / (npNorm (encode q) * npNorm v + eps) := by
  obtain ⟨-, hr⟩ := simSearch_ok_inv encode st q k r st1 h
  subst hr
  have h1 : p ∈ (st1.cache.map
      (fun x => (x.2.1, cosSim (encode q) x.2.2))).mergeSort descBySim :=
    List.mem_of_mem_take hp
  rw [List.mem_mergeSort, List.mem_map] at h1
  obtain ⟨x, hx, hxp⟩ := h1
  exact ⟨x.1, x.2.2, by simpa [← hxp] using hx, by simp [← hxp, cosSim]⟩

/-- The cosine denominator is strictly positive for every pair of vectors,
zero vectors included: norms are non-negative and the `1e-8` guard is
positive. -/
theorem denom_pos (q v : Vec) : 0 < npNorm q * npNorm v + eps := by
  have h1 : 0 ≤ npNorm q * npNorm v :=
    mul_nonneg (Real.sqrt_nonneg _) (Real.sqrt_nonneg _)
  have h2 : 0 < eps := by norm_num [eps]
  linarith

/-- A row loop hitting a corrupt blob raises, whatever comes after it. -/
theorem loadRows_corrupt (pre : List (String × String × Blob)) (id t : String)
    (post : List (String × String × Blob))
    (hpre : ∀ r ∈ pre, r.2.2 ≠ Blob.corrupt) :
    loadRows (pre ++ (id, t, Blob.corrupt) :: post) =
      Except.error Err.unpickling := by
  induction pre with
  | nil => rfl
  | cons a rest ih =>
    obtain ⟨a1, a2, ab⟩ := a
    cases hb : ab with
    | corrupt =>
      subst hb
      exact absurd rfl (hpre (a1, a2, Blob.corrupt) (by simp))
    | vec v =>
      subst hb
      have hres := ih (fun r hr => hpre r (by simp [hr]))
      simp [loadRows, pickleLoads, hres, Except.map]

/-- A search on a one-record cache returns exactly that record's text with
its cosine score (the sort and the slice are both trivial on a singleton). -/
theorem simSearch_singleton (encode : String → Vec) (id t : String) (v : Vec)
    (tbl : List (String × String × Blob)) (q : String) :
    similaritySearch encode ⟨[(id, (t, v))], tbl, true⟩ q 1 =
      Except.ok ([(t, cosSim (encode q) v)], ⟨[(id, (t, v))], tbl, true⟩) := by
  rw [simSearch_of_cache_ne encode _ q 1 (List.cons_ne_nil _ _)]
  simp [List.mergeSort_singleton, pySliceTo]

end VectorStoreLemmas

section DbLemmas

/-- The SQL decrement maps the stored `tokens_remaining` for `u` through
subtraction by one. -/
theorem lookupTokens_sqlDecrement (db : UserDb) (u : String) :
    lookupTokens (sqlDecrement db u) u =
      (lookupTokens db u).map (fun t => t - 1) := by
  induction db with
  | nil => rfl
  | cons a rest ih =>
    obtain ⟨a1, a2⟩ := a
    by_cases ha : a1 = u
    · subst ha
      simp [sqlDecrement, lookupTokens, List.find?_cons_of_pos]
    · have hb : (a1 == u) = false := by simpa using ha
      simp only [sqlDecrement, List.map_cons, hb, Bool.false_eq_true, if_false,
        lookupTokens] at ih ⊢
      rw [List.find?_cons_of_neg _ (by simp [hb]),
        List.find?_cons_of_neg _ (by simp [hb])]
      exact ih

/-- `get_or_create_user` reports exactly the `tokens_remaining` the caller
observes (with the created row holding the default 0). -/
theorem getOrCreateUser_fst (db : UserDb) (u : String) :
    (getOrCreateUser db u).1 = tokensOf db u := by
  unfold getOrCreateUser tokensOf
  cases h : lookupTokens db u <;> simp [h]

/-- Appending the fresh `(u, 0)` row makes the lookup succeed with 0. -/
theorem lookupTokens_append_single (db : UserDb) (u : String)
    (h : lookupTokens db u = none) :
    lookupTokens (db ++ [(u, 0)]) u = some 0 := by
  unfold lookupTokens at *
  rw [List.find?_append]
  cases hf : db.find? (fun p => p.1 == u) with
  | some a => simp [hf] at h
  | none => simp [hf, List.find?]

/-- After `get_or_create_user` the row for `u` exists and holds the observed
token count. -/
theorem getOrCreateUser_lookup (db : UserDb) (u : String) :
    lookupTokens (getOrCreateUser db u).2 u = some (tokensOf db u) := by
  unfold getOrCreateUser tokensOf
  cases h : lookupTokens db u with
  | some t => simpa using h
  | none => simpa using lookupTokens_append_single db u h

end DbLemmas

end MindHarbor

namespace MindHarbor

/-- Claim C1 (amended): when `ids` is provided with a length different from
`texts`, `add_texts` does not fail; it returns the supplied ids unchanged and
writes one record per triple of `zip(ids, texts, embeddings)`, i.e. exactly
`min(len(ids), len(texts))` records (silent truncation). -/
theorem claim_C1 (encode : String → Vec) (st : Store) (texts l : List String)
    (h : st.connOpen = true) :
    addTexts encode st texts (some l) =
      Except.ok (l, writeBatch st (l.zip (texts.zip (texts.map encode)))) ∧
    (l.zip (texts.zip (texts.map encode))).length = min l.length texts.length := by
  constructor
  · simp [addTexts, h]
  · simp [List.length_zip, List.length_map]

/-- Claim C1 counterexample: calling `add_texts` with two texts and a single
id succeeds (no `DimensionMismatch`), storing exactly one truncated record
and returning the one id. -/
theorem claim_C1_ce :
    addTexts encA emptyStore ["a", "b"] (some ["x"]) =
      Except.ok (["x"],
        ⟨[("x", ("a", [1]))], [("x", "a", Blob.vec [1])], true⟩) := rfl

/-- Claim C1 witness: the amended statement at a two-text, one-id call. -/
theorem claim_C1_w :
    addTexts encA emptyStore ["a", "b"] (some ["x"]) =
      Except.ok (["x"],
        writeBatch emptyStore
          (["x"].zip (["a", "b"].zip (["a", "b"].map encA)))) ∧
    (["x"].zip (["a", "b"].zip (["a", "b"].map encA))).length =
      min (["x"] : List String).length (["a", "b"] : List String).length :=
  claim_C1 encA emptyStore ["a", "b"] ["x"] rfl

/-- Claim C2 (amended): over a non-empty cache of `n` records,
`similarity_search` returns `min k n` pairs for `k ≥ 0` (so exactly `min k n`
for `k > 0` and none for `k = 0`), but for `k < 0` the Python slice returns
the first `n - |k|` (clipped at 0) pairs, not an empty sequence; a
never-populated store yields an empty sequence. -/
theorem claim_C2 (encode : String → Vec) :
    (∀ st q k, st.cache ≠ [] →
      ∃ r, similaritySearch encode st q k = Except.ok (r, st) ∧
        r.length = if 0 ≤ k then min k.toNat st.cache.length
                   else st.cache.length - (-k).toNat) ∧
    (∀ q k, similaritySearch encode emptyStore q k =
      Except.ok ([], emptyStore)) :=
  ⟨fun st q k h => simSearch_length encode st q k h,
   fun q k => simSearch_empty encode q k⟩

/-- Claim C2 counterexample: on a cache of two records, `k = -1` returns one
result, not the empty sequence the claim requires for `k ≤ 0`. -/
theorem claim_C2_ce :
    (similaritySearch encA storeTwoB "q" (-1)).map (fun p => p.1.length) =
      Except.ok 1 := by
  obtain ⟨r, hok, hlen⟩ :=
    simSearch_length encA storeTwoB "q" (-1) (List.cons_ne_nil _ _)
  rw [hok]
  have hr1 : r.length = 1 := by rw [hlen]; norm_num [storeTwoB]
  simp [Except.map, hr1]

/-- Claim C2 witness: the amended statement at `k = 1` over two records and
at a never-populated store. -/
theorem claim_C2_w :
    (∃ r, similaritySearch encA storeTwoA "q" 1 = Except.ok (r, storeTwoA) ∧
      r.length = if 0 ≤ (1 : Int) then min (1 : Int).toNat storeTwoA.cache.length
                 else storeTwoA.cache.length - (-(1 : Int)).toNat) ∧
    similaritySearch encA emptyStore "q" 3 = Except.ok ([], emptyStore) :=
  ⟨(claim_C2 encA).1 storeTwoA "q" 1 (List.cons_ne_nil _ _),
   (claim_C2 encA).2 "q" 3⟩

/-- Claim C3 (amended): during hydration a record whose blob cannot be
deserialized is not skipped: `pickle.loads` raises out of
`_load_all_vectors`, so `similarity_search` propagates the error to the
caller and returns no results for the remaining valid records. -/
theorem claim_C3 (encode : String → Vec) (st : Store) (q : String) (k : Int)
    (pre : List (String × String × Blob)) (id t : String)
    (post : List (String × String × Blob))
    (hc : st.cache = []) (ho : st.connOpen = true)
    (ht : st.table = pre ++ (id, t, Blob.corrupt) :: post)
    (hpre : ∀ r ∈ pre, r.2.2 ≠ Blob.corrupt) :
    similaritySearch encode st q k = Except.error Err.unpickling := by
  unfold similaritySearch hydrate
  rw [hc, ht]
  simp [ho, loadRows_corrupt pre id t post hpre, Except.map]

/-- Claim C3 counterexample: a single corrupt blob makes the load raise to
the caller instead of being skipped. -/
theorem claim_C3_ce :
    similaritySearch encA storeCorruptOne "q" 3 =
      Except.error Err.unpickling := rfl

/-- Claim C3 witness: the amended statement on a table with a corrupt blob
between two valid rows. -/
theorem claim_C3_w :
    similaritySearch encA storeCorruptMid "q" 3 =
      Except.error Err.unpickling :=
  claim_C3 encA storeCorruptMid "q" 3 [("a", "ta", Blob.vec [1])] "b" "tb"
    [("c", "tc", Blob.vec [1])] rfl rfl rfl
    (by rintro r hr; rw [List.mem_singleton] at hr; subst hr; simp)

/-- Claim C4: the cosine denominator is strictly positive for every pair of
vectors (zero vectors included), and every pair returned by
`similarity_search` carries the score
`dot(q, v) / (norm(q) * norm(v) + 1e-8)` of the cached record it came from. -/
theorem claim_C4 (encode : String → Vec) :
    (∀ q v, 0 < npNorm q * npNorm v + eps) ∧
    (∀ st q k r st1, similaritySearch encode st q k = Except.ok (r, st1) →
      ∀ p ∈ r, ∃ id v, (id, p.1, v) ∈ st1.cache ∧
        p.2 = npDot (encode q) v / (npNorm (encode q) * npNorm v + eps)) :=
  ⟨fun q v => denom_pos q v,
   fun st q k r st1 h p hp => mem_simSearch encode st q k r st1 h p hp⟩

/-- Claim C4 witness: the formula and denominator positivity at a concrete
one-record search. -/
theorem claim_C4_w :
    (0 < npNorm (encA "q") * npNorm [1] + eps) ∧
    (∃ id v, (id, "ta", v) ∈ storeOneA.cache ∧
      cosSim (encA "q") [1] =
        npDot (encA "q") v / (npNorm (encA "q") * npNorm v + eps)) := by
  have heq : similaritySearch encA storeOneA "q" 1 =
      Except.ok ([("ta", cosSim (encA "q") [1])], storeOneA) :=
    simSearch_singleton encA "a" "ta" [1] [] "q"
  refine ⟨(claim_C4 encA).1 (encA "q") [1], ?_⟩
  have h2 := (claim_C4 encA).2 storeOneA "q" 1 _ storeOneA heq
    ("ta", cosSim (encA "q") [1]) (by simp)
  simpa using h2

/-- Claim C5: the sequence returned by `similarity_search` is sorted by
similarity descending: every earlier result's score is at least every later
one's. -/
theorem claim_C5 (encode : String → Vec) (st : Store) (q : String) (k : Int)
    (r : List (String × ℝ)) (st1 : Store)
    (h : similaritySearch encode st q k = Except.ok (r, st1)) :
    r.Pairwise (fun a b => b.2 ≤ a.2) := by
  obtain ⟨-, hr⟩ := simSearch_ok_inv encode st q k r st1 h
  subst hr
  have hs : ((st1.cache.map
      (fun x => (x.2.1, cosSim (encode q) x.2.2))).mergeSort
        descBySim).Pairwise (fun a b => descBySim a b = true) := by
    apply List.sorted_mergeSort
    · intro a b c hab hbc
      simp only [descBySim, decide_eq_true_eq] at *
      exact le_trans hbc hab
    · intro a b
      simp only [descBySim, Bool.or_eq_true, decide_eq_true_eq]
      exact le_total b.2 a.2
  unfold pySliceTo
  exact (hs.sublist (List.take_sublist _ _)).imp
    (fun hab => by simpa [descBySim] using hab)

/-- Claim C5 witness: descending order of a concrete one-record search. -/
theorem claim_C5_w :
    ([("te", cosSim (encA "q") [2])] :
      List (String × ℝ)).Pairwise (fun a b => b.2 ≤ a.2) :=
  claim_C5 encA storeOneB "q" 1 _ storeOneB
    (simSearch_singleton encA "e" "te" [2] [] "q")

end MindHarbor

namespace MindHarbor

/-- Claim C6: re-ingesting an existing id replaces the prior record's text
and vector in both the cache and the durable table, leaving exactly one
record for that id (last-write-wins). -/
theorem claim_C6 (encode : String → Vec) (id t1 t2 : String)
    (r1 r2 : List String) (st1 st2 : Store)
    (h1 : addTexts encode emptyStore [t1] (some [id]) = Except.ok (r1, st1))
    (h2 : addTexts encode st1 [t2] (some [id]) = Except.ok (r2, st2)) :
    st2.cache = [(id, (t2, encode t2))] ∧
    st2.table = [(id, t2, Blob.vec (encode t2))] := by
  simp [addTexts, emptyStore, writeBatch, writeOne, dictUpsert, sqlUpsert,
    pickleDumps] at h1
  obtain ⟨hr1, hst1⟩ := h1
  subst hst1
  simp [addTexts, writeBatch, writeOne, dictUpsert, sqlUpsert,
    pickleDumps] at h2
  obtain ⟨hr2, hst2⟩ := h2
  subst hst2
  exact ⟨rfl, rfl⟩

/-- Claim C6 witness: two writes under id `"x"` leave the second text and
vector as the only record. -/
theorem claim_C6_w :
    (⟨[("x", ("b", [1]))], [("x", "b", Blob.vec [1])], true⟩ : Store).cache =
      [("x", ("b", encA "b"))] ∧
    (⟨[("x", ("b", [1]))], [("x", "b", Blob.vec [1])], true⟩ : Store).table =
      [("x", "b", Blob.vec (encA "b"))] :=
  claim_C6 encA "x" "a" "b" ["x"] ["x"]
    ⟨[("x", ("a", [1]))], [("x", "a", Blob.vec [1])], true⟩
    ⟨[("x", ("b", [1]))], [("x", "b", Blob.vec [1])], true⟩ rfl rfl

/-- Claim C7: a vector persisted by `add_texts` deserializes on a subsequent
hydration to the identical sequence of numbers, and
`pickle.loads(pickle.dumps(v))` is the identity on every vector. -/
theorem claim_C7 (encode : String → Vec) (t id : String) :
    addTexts encode emptyStore [t] (some [id]) =
      Except.ok ([id],
        ⟨[(id, (t, encode t))], [(id, t, Blob.vec (encode t))], true⟩) ∧
    hydrate ⟨[], [(id, t, Blob.vec (encode t))], true⟩ =
      Except.ok ⟨[(id, (t, encode t))], [(id, t, Blob.vec (encode t))], true⟩ ∧
    (∀ v, pickleLoads (pickleDumps v) = some v) :=
  ⟨rfl, rfl, fun _ => rfl⟩

/-- Claim C8: with `ids=None`, the generated ids are exactly
`doc_0 … doc_{n-1}`, by position within the batch (independent of any prior
store state), returned in input order. -/
theorem claim_C8 (encode : String → Vec) (st : Store) (texts : List String)
    (h : st.connOpen = true) :
    (∃ st1, addTexts encode st texts none =
      Except.ok ((List.range texts.length).map (fun i => "doc_" ++ toString i),
        st1)) ∧
    ((List.range texts.length).map
      (fun i => "doc_" ++ toString i)).length = texts.length := by
  refine ⟨⟨writeBatch st
    ((genIds texts.length).zip (texts.zip (texts.map encode))), ?_⟩, by simp⟩
  simp [addTexts, h, genIds]

/-- Claim C8 witness: two texts with omitted ids get `doc_0` and `doc_1`. -/
theorem claim_C8_w :
    (∃ st1, addTexts encA emptyStore ["a", "b"] none =
      Except.ok ((List.range (["a", "b"] : List String).length).map
        (fun i => "doc_" ++ toString i), st1)) ∧
    ((List.range (["a", "b"] : List String).length).map
      (fun i => "doc_" ++ toString i)).length =
        (["a", "b"] : List String).length :=
  claim_C8 encA emptyStore ["a", "b"] rfl

/-- Claim C9: `close` leaves the cache and the durable table untouched, and
a search over a non-empty cache returns the same results after `close` as
before, without touching storage. -/
theorem claim_C9 (encode : String → Vec) (st : Store) (q : String) (k : Int)
    (h : st.cache ≠ []) :
    (close st).cache = st.cache ∧ (close st).table = st.table ∧
    ∃ r, similaritySearch encode (close st) q k = Except.ok (r, close st) ∧
         similaritySearch encode st q k = Except.ok (r, st) := by
  refine ⟨rfl, rfl, ?_⟩
  refine ⟨_, simSearch_of_cache_ne encode (close st) q k h, ?_⟩
  exact simSearch_of_cache_ne encode st q k h

/-- Claim C9 witness: the close/search decoupling at a two-record store. -/
theorem claim_C9_w :
    (close storeTwoC).cache = storeTwoC.cache ∧
    (close storeTwoC).table = storeTwoC.table ∧
    ∃ r, similaritySearch encA (close storeTwoC) "q" 2 =
        Except.ok (r, close storeTwoC) ∧
      similaritySearch encA storeTwoC "q" 2 = Except.ok (r, storeTwoC) :=
  claim_C9 encA storeTwoC "q" 2 (List.cons_ne_nil _ _)

/-- Claim C10: `decrement_token` returns `true` and decrements by exactly
one when the observed `tokens_remaining` is positive; otherwise it returns
`false` and leaves the count unchanged; it never drives a non-negative count
below zero. -/
theorem claim_C10 (db : UserDb) (u : String) :
    (0 < tokensOf db u →
      (decrementToken db u).1 = true ∧
      tokensOf (decrementToken db u).2 u = tokensOf db u - 1) ∧
    (tokensOf db u ≤ 0 →
      (decrementToken db u).1 = false ∧
      tokensOf (decrementToken db u).2 u = tokensOf db u) ∧
    (0 ≤ tokensOf db u → 0 ≤ tokensOf (decrementToken db u).2 u) := by
  have hf := getOrCreateUser_fst db u
  have hl := getOrCreateUser_lookup db u
  by_cases hpos : 0 < tokensOf db u
  · have hd : decrementToken db u =
        (true, sqlDecrement (getOrCreateUser db u).2 u) := by
      simp [decrementToken, hf, hpos]
    have hd1 : (decrementToken db u).1 = true := by rw [hd]
    have hd2 : (decrementToken db u).2 =
        sqlDecrement (getOrCreateUser db u).2 u := by rw [hd]
    have ht : tokensOf (sqlDecrement (getOrCreateUser db u).2 u) u =
        tokensOf db u - 1 := by
      unfold tokensOf
      rw [lookupTokens_sqlDecrement, hl]
      rfl
    refine ⟨fun _ => ⟨hd1, by rw [hd2, ht]⟩,
      fun hle => absurd hpos (by omega), fun _ => ?_⟩
    rw [hd2, ht]
    omega
  · have hd : decrementToken db u = (false, (getOrCreateUser db u).2) := by
      simp [decrementToken, hf, hpos]
    have hd1 : (decrementToken db u).1 = false := by rw [hd]
    have hd2 : (decrementToken db u).2 = (getOrCreateUser db u).2 := by
      rw [hd]
    have ht : tokensOf (getOrCreateUser db u).2 u = tokensOf db u := by
      unfold tokensOf
      rw [hl]
      rfl
    refine ⟨fun hp => absurd hp hpos, fun _ => ⟨hd1, by rw [hd2, ht]⟩,
      fun h0 => ?_⟩
    rw [hd2, ht]
    omega

/-- Claim C10 witness: a user holding two tokens spends one. -/
theorem claim_C10_w :
    (decrementToken [("u", 2)] "u").1 = true ∧
    tokensOf (decrementToken [("u", 2)] "u").2 "u" =
      tokensOf [("u", 2)] "u" - 1 :=
  (claim_C10 [("u", 2)] "u").1 (by decide)

end MindHarbor
